import Mathlib

/-!
Verification of the MarkoDownloadBot media pipeline.

Shallow embedding of the Go sources (`video.go`, and the pipeline variants in
`src/unnamed/part_000` / `src/unnamed/part_001`).  Conventions:

* Go strings are embedded as `List Char` (codec tags, command arguments,
  duration strings); for the filename sanitizer, where Go's byte-based `len`
  and slicing matter, strings are embedded as `List Nat` of UTF-8 bytes and
  titles as `List Nat` of runes (Go's `range` over a string yields runes).
* Go `int`/`int64` are embedded as `Int` with Go's truncated division
  (`Int.tdiv`).  Two's-complement wraparound is not modelled: the quantities
  involved (file sizes, durations, bitrates) stay far below 2^63 in every
  reachable state.
* `int64(float64(size) * 1.15)` in `calculateTargetBitrate` is modelled as the
  exact truncation `Int.tdiv (23 * size) 20`; the sub-ulp float64 rounding of
  the product is abstracted to exact arithmetic.
* Fallible operations return `Option`; external-process execution is modelled
  by an oracle giving each attempt's outcome.
-/

/-- The character list of a string literal (Go string as `List Char`). -/
def strL (s : String) : List Char := s.data

/-- Go `strings.HasPrefix s pre` on embedded strings. -/
def goStartsWith : List Char → List Char → Bool
  | _, [] => true
  | [], _ :: _ => false
  | c :: s, p :: ps => c == p && goStartsWith s ps

/-- Go `strings.Contains s sub` on embedded strings. -/
def goContains (s sub : List Char) : Bool :=
  match s with
  | [] => goStartsWith [] sub
  | c :: t => goStartsWith (c :: t) sub || goContains t sub

/-- Decimal digit value of a character, `none` for a non-digit
(`strconv` accepts exactly '0'..'9' in base 10). -/
def decDigit? (c : Char) : Option Nat :=
  if '0' ≤ c ∧ c ≤ '9' then some (c.toNat - '0'.toNat) else none

/-- Accumulate the decimal value of a digit run; `none` on any non-digit. -/
def decValueAux : List Char → Nat → Option Nat
  | [], acc => some acc
  | c :: t, acc =>
    match decDigit? c with
    | some d => decValueAux t (acc * 10 + d)
    | none => none

/-- Value of a non-empty all-digit string, `none` otherwise. -/
def parseDigits? (s : List Char) : Option Nat :=
  match s with
  | [] => none
  | _ :: _ => decValueAux s 0

/-- Go `strconv.Atoi` (= `ParseInt(s, 10, 64)` on a 64-bit platform): an
optional single leading sign, then one or more decimal digits, and the value
must fit in `int64`; anything else is an error (`none`). -/
def goAtoi (s : List Char) : Option Int :=
  match s with
  | [] => none
  | '+' :: rest =>
    (parseDigits? rest).bind fun n =>
      if n ≤ 9223372036854775807 then some (Int.ofNat n) else none
  | '-' :: rest =>
    (parseDigits? rest).bind fun n =>
      if n ≤ 9223372036854775808 then some (-(Int.ofNat n)) else none
  | _ =>
    (parseDigits? s).bind fun n =>
      if n ≤ 9223372036854775807 then some (Int.ofNat n) else none

/-- Go `strings.Split v ":"`: split on every colon, keeping empty fields
(`Split("", ":") = [""]`). -/
def splitOnColon : List Char → List (List Char)
  | [] => [[]]
  | c :: rest =>
    let r := splitOnColon rest
    if c = ':' then [] :: r
    else
      match r with
      | h :: t => (c :: h) :: t
      | [] => [[c]]

/-- `CustomDuration.UnmarshalJSON` (video.go:38-85, part_000:355-402,
part_001:611-658), after the JSON string itself has been decoded: split on
':' and combine one, two or three `Atoi`-parsed parts into seconds;
any other part count or any `Atoi` failure is an error (`none`). -/
def unmarshalDuration (v : List Char) : Option Int :=
  match splitOnColon v with
  | [p] => goAtoi p
  | [p1, p2] =>
    (goAtoi p1).bind fun mm =>
      (goAtoi p2).bind fun ss => some (mm * 60 + ss)
  | [p1, p2, p3] =>
    (goAtoi p1).bind fun hh =>
      (goAtoi p2).bind fun mm =>
        (goAtoi p3).bind fun ss => some (hh * 3600 + mm * 60 + ss)
  | _ => none

/-- `Media.needsVideoConversion` (part_001:495-515, part_000:276-296).
`vcodec` is the record's yt-dlp-detected codec field `media.VCodec`;
`codecName` is the probed codec argument. -/
def needsVideoConversion (vcodec codecName : List Char) : Bool :=
  if goStartsWith codecName (strL "av01") then true
  else if goStartsWith codecName (strL "vp9") || goStartsWith codecName (strL "vp09") then true
  else if goStartsWith vcodec (strL "av01") || goStartsWith vcodec (strL "vp09") then true
  else false

/-- `Media.needsAudioConversion` (part_001:518-541, part_000:299-322). -/
def needsAudioConversion (codecName : List Char) : Bool :=
  if codecName = strL "aac" then false
  else if codecName = strL "opus" then true
  else if codecName = strL "vorbis" then true
  else if codecName = strL "flac" then true
  else false

/-- `Media.calculateTargetBitrate` (part_000:325-353).  `int64` arithmetic with
Go's truncated division; the float64 multiplication by 1.15 is modelled as
exact `⌊23·size/20⌋` (truncation toward zero, as the `int64(...)` conversion
does). -/
def calculateTargetBitrate (originalFileSize duration : Int) : Int :=
  let targetFileSize : Int := Int.tdiv (23 * originalFileSize) 20
  let durationSeconds : Int := if duration = 0 then 1 else duration
  let audioBitrate : Int := 128000
  let targetBitrate : Int := Int.tdiv (targetFileSize * 8) durationSeconds - audioBitrate
  let minBitrate : Int := 200000
  let maxBitrate : Int := 2000000
  let t1 : Int := if targetBitrate < minBitrate then minBitrate else targetBitrate
  let t2 : Int := if t1 > maxBitrate then maxBitrate else t1
  t2

/-- The size-budget bitrate strategy as the spec states it (§4.5/§9): target
size 1.15× the original, minus a 128 kbit/s audio allowance, divided by the
duration (0 treated as 1), clamped into [200000, 2000000].  Stated from the
spec's words, to be compared with `calculateTargetBitrate`. -/
def specTargetBitrate (originalFileSize duration : Int) : Int :=
  let d : Int := if duration = 0 then 1 else duration
  let raw : Int := Int.tdiv (Int.tdiv (23 * originalFileSize) 20 * 8) d - 128000
  min 2000000 (max 200000 raw)

/-- `MediaAnalysis` of the part_001 pipeline variant (part_001:267-276),
restricted to the fields `determineConversionStrategy` writes. -/
structure MediaAnalysis where
  needsVideoConversion : Bool
  needsAudioConversion : Bool
  audioConversionType : List Char
  isAlreadyCompatible : Bool
deriving DecidableEq

/-- `Media.determineConversionStrategy` (part_001:473-492).  Inputs are the
record's `VCodec` field and the analysis' selected video/audio codec tags. -/
def determineConversionStrategy (vcodec origVideoCodec origAudioCodec : List Char) :
    MediaAnalysis :=
  let nv := needsVideoConversion vcodec origVideoCodec
  let na := needsAudioConversion origAudioCodec
  { needsVideoConversion := nv
    needsAudioConversion := na
    audioConversionType := if na then strL "aac" else strL "copy"
    isAlreadyCompatible := !nv && !na }

/-- `MediaAnalysis` of the part_000 pipeline variant (part_000:37-48),
restricted to the fields `determineConversionStrategy` writes. -/
structure MediaAnalysisV0 where
  needsVideoConversion : Bool
  needsAudioConversion : Bool
  videoConversionType : List Char
  audioConversionType : List Char
  targetBitrate : Int
  isAlreadyCompatible : Bool
deriving DecidableEq

/-- `Media.determineConversionStrategy` of the part_000 variant
(part_000:245-273).  `TargetBitrate` keeps its zero value when no video
conversion is needed. -/
def determineConversionStrategyV0 (vcodec origVideoCodec origAudioCodec : List Char)
    (originalFileSize duration : Int) : MediaAnalysisV0 :=
  let nv := needsVideoConversion vcodec origVideoCodec
  let na := needsAudioConversion origAudioCodec
  { needsVideoConversion := nv
    needsAudioConversion := na
    videoConversionType := if nv then strL "h265" else strL "none"
    audioConversionType := if na then strL "aac" else strL "copy"
    targetBitrate := if nv then calculateTargetBitrate originalFileSize duration else 0
    isAlreadyCompatible := !nv && !na }

/-- `FFProbeStream` (part_001:289-300, part_000:61-72): one stream descriptor
from the probe report; `dispositionDefault` embeds `Disposition.Default`. -/
structure FFProbeStream where
  index : Int
  codecType : List Char
  codecName : List Char
  bitRate : List Char
  width : Int
  height : Int
  channels : Int
  dispositionDefault : Int
deriving DecidableEq

/-- `parseBitrate` (part_001:417-429): empty or unparseable bitrate strings
parse to 0, never an error (`ParseInt(s, 10, 64)` shares the `goAtoi`
model). -/
def parseBitrate (bitrateStr : List Char) : Int :=
  if bitrateStr = [] then 0
  else
    match goAtoi bitrateStr with
    | some bitrate => bitrate
    | none => 0

/-- `isVideoStreamBetter` (part_001:386-401): larger width*height wins, then
larger parsed bitrate. -/
def isVideoStreamBetter (stream1 stream2 : FFProbeStream) : Bool :=
  let resolution1 := stream1.width * stream1.height
  let resolution2 := stream2.width * stream2.height
  if resolution1 ≠ resolution2 then decide (resolution1 > resolution2)
  else decide (parseBitrate stream1.bitRate > parseBitrate stream2.bitRate)

/-- `isAudioStreamBetter` (part_001:403-415): larger channel count wins, then
larger parsed bitrate. -/
def isAudioStreamBetter (stream1 stream2 : FFProbeStream) : Bool :=
  if stream1.channels ≠ stream2.channels then decide (stream1.channels > stream2.channels)
  else decide (parseBitrate stream1.bitRate > parseBitrate stream2.bitRate)

/-- `selectBestVideoStream` (part_001:320-351): collect the video streams;
none if there are none; else the first default-disposition one if any; else
the left-to-right fold winner under `isVideoStreamBetter`. -/
def selectBestVideoStream (streams : List FFProbeStream) : Option FFProbeStream :=
  match streams.filter (fun s => s.codecType == strL "video") with
  | [] => none
  | first :: rest =>
    match (first :: rest).find? (fun s => s.dispositionDefault == 1) with
    | some s => some s
    | none =>
      some (rest.foldl (fun best s => if isVideoStreamBetter s best then s else best) first)

/-- `selectBestAudioStream` (part_001:353-384): same policy over the audio
streams with `isAudioStreamBetter`. -/
def selectBestAudioStream (streams : List FFProbeStream) : Option FFProbeStream :=
  match streams.filter (fun s => s.codecType == strL "audio") with
  | [] => none
  | first :: rest =>
    match (first :: rest).find? (fun s => s.dispositionDefault == 1) with
    | some s => some s
    | none =>
      some (rest.foldl (fun best s => if isAudioStreamBetter s best then s else best) first)

/-- The request-derived fields `getCommandString` reads from the `Media`
record (part_001:898-938, video.go:227-267). -/
structure MediaArgs where
  host : List Char
  urlPath : List Char
  audioOnly : Bool
  cookiesFile : List Char
  tmpDir : List Char
  randomName : List Char
  url : List Char
deriving DecidableEq

/-- `Media.getCommandString` (part_001:898-938, video.go:227-267): the yt-dlp
invocation built from the request; `simplified` drops the YouTube
format-selection and sort arguments. -/
def getCommandString (m : MediaArgs) (simplified : Bool) : List (List Char) :=
  let res : List (List Char) := [strL "yt-dlp"]
  let res := res ++
    (if m.audioOnly then [strL "-x", strL "--audio-format", strL "mp3"]
     else [strL "--recode-video", strL "mp4"])
  let res := res ++ [strL "--write-info-json"]
  let res := res ++
    (if (m.host == strL "www.youtube.com" || m.host == strL "youtube.com" ||
          m.host == strL "youtu.be") &&
        !m.audioOnly && !goContains m.urlPath (strL "shorts") && !simplified
     then [strL "-f", strL "bv[filesize<=1700M]+ba[filesize<=300M]",
           strL "-S", strL "ext,res:720"]
     else [])
  let res := res ++
    (if goContains m.host (strL "tiktok.com")
     then [strL "-f", strL "b[url!^=\"https://www.tiktok.com/\"]"]
     else [])
  let res := res ++ [strL "-o", m.tmpDir ++ strL "/" ++ m.randomName ++ strL ".%(ext)s", m.url]
  let res := res ++ (if m.cookiesFile = [] then [] else [strL "--cookies", m.cookiesFile])
  res

/-- The condition under which the full (non-simplified) invocation carries the
YouTube format-selection and sort arguments. -/
def ytFormatCond (m : MediaArgs) : Bool :=
  (m.host == strL "www.youtube.com" || m.host == strL "youtube.com" ||
    m.host == strL "youtu.be") &&
  !m.audioOnly && !goContains m.urlPath (strL "shorts")

/-- The outcome of `DownloadMedia`'s retry loop (part_001:676-687,
video.go:103-114, part_000:420-431): which attempts ran (their `simplified`
flags in order) and, on failure, the error the returned `DownloadFailed`
error wraps.  `fmt.Errorf("both download attempts failed: %w", err)` wraps
the value of `err` at that point, which is the second attempt's error. -/
inductive DownloadOutcome (ε : Type) where
  | success (attempts : List Bool)
  | failure (attempts : List Bool) (carried : ε)
deriving DecidableEq

/-- The attempts an outcome records. -/
def DownloadOutcome.attempts {ε : Type} : DownloadOutcome ε → List Bool
  | .success a => a
  | .failure a _ => a

/-- The retry loop of `DownloadMedia` (part_001:676-687, video.go:103-114):
run the external fetch with full arguments; on error run it once more with
simplified arguments; on a second error return the wrapped second error.
`run b` is the oracle giving the outcome of `executeDownload b`
(`none` = exit code 0, `some e` = the non-zero-exit error). -/
def downloadMediaRetry {ε : Type} (run : Bool → Option ε) : DownloadOutcome ε :=
  match run false with
  | none => .success [false]
  | some _ =>
    match run true with
    | none => .success [false, true]
    | some e2 => .failure [false, true] e2

/-- Code points of a string literal (for ASCII text these coincide with its
UTF-8 bytes). -/
def strCodes (s : String) : List Nat := s.data.map Char.toNat

/-- One iteration of `sanitizeFileName`'s rune loop (part_001:563-579): drop
control characters (< 32), replace each of / \ < > : " | (47 92 60 62 58 34
124) with '-' (45), drop '?' (63) and '*' (42), keep everything else. -/
def sanitizeRuneStep (r : Nat) : List Nat :=
  if r < 32 then []
  else if r = 47 ∨ r = 92 ∨ r = 60 ∨ r = 62 ∨ r = 58 ∨ r = 34 ∨ r = 124 then [45]
  else if r = 63 ∨ r = 42 then []
  else [r]

/-- Go `WriteRune` normalization: code points above U+10FFFF and surrogates
encode as U+FFFD. -/
def runeNorm (r : Nat) : Nat :=
  if 1114111 < r ∨ (55296 ≤ r ∧ r ≤ 57343) then 65533 else r

/-- UTF-8 encoding of one rune, as Go's `strings.Builder.WriteRune`
produces it. -/
def utf8EncodeRune (r0 : Nat) : List Nat :=
  let r := runeNorm r0
  if r < 128 then [r]
  else if r < 2048 then [192 + r / 64, 128 + r % 64]
  else if r < 65536 then [224 + r / 4096, 128 + r / 64 % 64, 128 + r % 64]
  else [240 + r / 262144, 128 + r / 4096 % 64, 128 + r / 64 % 64, 128 + r % 64]

/-- UTF-8 byte string of a rune sequence. -/
def utf8Encode (runes : List Nat) : List Nat := (runes.map utf8EncodeRune).flatten

/-- Byte-level left trim over a cutset.  Go `strings.Trim` works per rune, but
over the ASCII cutset " ." on valid UTF-8 this is exactly a byte-level trim
of bytes 32 and 46 (multi-byte runes start and continue with bytes ≥ 128). -/
def trimLeftSet (cutset : List Nat) : List Nat → List Nat
  | [] => []
  | b :: t => if b ∈ cutset then trimLeftSet cutset t else b :: t

/-- Byte-level right trim over a cutset (see `trimLeftSet`). -/
def trimRightSet (cutset : List Nat) (s : List Nat) : List Nat :=
  (trimLeftSet cutset s.reverse).reverse

/-- The collapse loop of `sanitizeFileName` (part_001:586-589): repeated
`ReplaceAll "  " " "` until no double space remains, i.e. every maximal run
of two-or-more spaces becomes a single space. -/
def collapseSpaces : List Nat → List Nat
  | [] => []
  | [b] => [b]
  | a :: b :: t =>
    if a = 32 ∧ b = 32 then collapseSpaces (b :: t) else a :: collapseSpaces (b :: t)

/-- Index of the last occurrence of a byte (`strings.LastIndex` with a
one-byte needle), `none` when absent. -/
def lastIdxOf (b : Nat) : List Nat → Option Nat
  | [] => none
  | h :: t =>
    match lastIdxOf b t with
    | some i => some (i + 1)
    | none => if h = b then some 0 else none

/-- Byte-string prefix test. -/
def bytesStartWith : List Nat → List Nat → Bool
  | _, [] => true
  | [], _ :: _ => false
  | b :: s, p :: ps => b == p && bytesStartWith s ps

/-- UTF-8 encodings of every rune Go's `unicode.IsSpace` accepts: \t \n \v \f
\r space, U+0085, U+00A0, U+1680, U+2000..U+200A, U+2028, U+2029, U+202F,
U+205F, U+3000. -/
def goSpaceEncodings : List (List Nat) :=
  [[9], [10], [11], [12], [13], [32],
   [194, 133], [194, 160],
   [225, 154, 128],
   [226, 128, 128], [226, 128, 129], [226, 128, 130], [226, 128, 131],
   [226, 128, 132], [226, 128, 133], [226, 128, 134], [226, 128, 135],
   [226, 128, 136], [226, 128, 137], [226, 128, 138],
   [226, 128, 168], [226, 128, 169], [226, 128, 175],
   [226, 129, 159],
   [227, 128, 128]]

/-- Length of the whitespace-rune encoding the byte string starts with, if
any.  At most one encoding can match (the single-byte ones are ASCII and the
multi-byte ones never overlap as prefixes), matching `DecodeRune`. -/
def spaceHeadLen (s : List Nat) : Option Nat :=
  goSpaceEncodings.findSome? fun e => if bytesStartWith s e then some e.length else none

/-- Length of the whitespace-rune encoding the byte string ends with, if any
(matching `DecodeLastRune`: a valid rune decode that spans exactly to the
end; an invalid or truncated trailing sequence is not whitespace).  The
argument is the reversed byte string. -/
def revSpaceHeadLen (s : List Nat) : Option Nat :=
  goSpaceEncodings.findSome? fun e => if bytesStartWith s e.reverse then some e.length else none

/-- Left half of Go `strings.TrimSpace`: drop leading whitespace runes.
Fuelled by the string length (each step drops at least one byte). -/
def trimLeftSpaceAux : Nat → List Nat → List Nat
  | 0, s => s
  | fuel + 1, s =>
    match spaceHeadLen s with
    | some k => trimLeftSpaceAux fuel (s.drop k)
    | none => s

/-- Drop leading whitespace runes (Go `strings.TrimSpace`, left half). -/
def trimLeftSpace (s : List Nat) : List Nat := trimLeftSpaceAux s.length s

/-- Right half of Go `strings.TrimSpace` on the reversed byte string. -/
def trimRightSpaceAux : Nat → List Nat → List Nat
  | 0, s => s
  | fuel + 1, s =>
    match revSpaceHeadLen s with
    | some k => trimRightSpaceAux fuel (s.drop k)
    | none => s

/-- Drop trailing whitespace runes (Go `strings.TrimSpace`, right half). -/
def trimRightSpace (s : List Nat) : List Nat :=
  (trimRightSpaceAux s.length s.reverse).reverse

/-- `sanitizeFileName` (part_001:545-609).  The title is the rune sequence
Go's `range` yields; the result is the returned byte string (`""` = the empty
list is the failure sentinel).  Steps in source order: empty check; the rune
filter/replace loop into a builder; `Trim " ."`; the double-space collapse
loop; byte-based truncation at 100 with a word-boundary preference above
index 70; final `TrimSpace` (empty result = failure). -/
def sanitizeFileName (title : List Nat) : List Nat :=
  if title = [] then []
  else
    let sanitized := utf8Encode ((title.map sanitizeRuneStep).flatten)
    let sanitized := trimRightSet [32, 46] (trimLeftSet [32, 46] sanitized)
    let sanitized := collapseSpaces sanitized
    let sanitized :=
      if 100 < sanitized.length then
        let truncated := sanitized.take 100
        match lastIdxOf 32 truncated with
        | some lastSpace => if 70 < lastSpace then truncated.take lastSpace else truncated
        | none => truncated
      else sanitized
    trimRightSpace (trimLeftSpace sanitized)

/-- C1 counterexample: the claim says a codec tag beginning with 'av01' in any
letter case needs conversion, but Go's `strings.HasPrefix` match is
case-sensitive: on the tag "AV01" (with a record whose own VCodec field is
empty) the predicate returns false. -/
theorem needsVideoConversion_uppercase_av01_not_converted :
    needsVideoConversion (strL "") (strL "AV01") = false := by decide

/-- C1 (amended): provided the record's sidecar-detected codec does not itself
force conversion, the predicate is total and deterministic and matches the
policy table by case-sensitive prefix: tags beginning with the lowercase
prefixes "av01", "vp9" or "vp09" need conversion, all others (including
"hevc", "h264", uppercase variants and unknown tags) do not. -/
theorem needsVideoConversion_case_sensitive_table (vcodec codecName : List Char)
    (h1 : goStartsWith vcodec (strL "av01") = false)
    (h2 : goStartsWith vcodec (strL "vp09") = false) :
    needsVideoConversion vcodec codecName =
      (goStartsWith codecName (strL "av01") || goStartsWith codecName (strL "vp9") ||
        goStartsWith codecName (strL "vp09")) := by
  unfold needsVideoConversion
  rw [h1, h2]
  cases ha : goStartsWith codecName (strL "av01") <;>
    cases hb : goStartsWith codecName (strL "vp9") <;>
      cases hc : goStartsWith codecName (strL "vp09") <;> simp

/-- Witness for C1's amended theorem at the record with empty VCodec and the
probed tag "hevc". -/
theorem needsVideoConversion_case_sensitive_table_witness :
    goStartsWith (strL "") (strL "av01") = false ∧
    goStartsWith (strL "") (strL "vp09") = false ∧
    needsVideoConversion (strL "") (strL "hevc") =
      (goStartsWith (strL "hevc") (strL "av01") || goStartsWith (strL "hevc") (strL "vp9") ||
        goStartsWith (strL "hevc") (strL "vp09")) :=
  ⟨by decide, by decide,
    needsVideoConversion_case_sensitive_table (strL "") (strL "hevc") (by decide) (by decide)⟩

/-- C2: the audio policy decides by exact match and is total: "aac" needs no
conversion, "opus"/"vorbis"/"flac" do, and every other tag (including "mp3"
and unknown tags) does not. -/
theorem needsAudioConversion_exact_table :
    (∀ codecName : List Char,
        needsAudioConversion codecName =
          (codecName == strL "opus" || codecName == strL "vorbis" ||
            codecName == strL "flac")) ∧
    needsAudioConversion (strL "aac") = false ∧
    needsAudioConversion (strL "opus") = true ∧
    needsAudioConversion (strL "vorbis") = true ∧
    needsAudioConversion (strL "flac") = true ∧
    needsAudioConversion (strL "mp3") = false ∧
    needsAudioConversion (strL "unknown") = false := by
  refine ⟨?_, by decide, by decide, by decide, by decide, by decide, by decide⟩
  intro c
  unfold needsAudioConversion
  split_ifs with h1 h2 h3 h4 <;> simp_all [beq_iff_eq]
  decide

/-- C9: the video predicate also consults the record's sidecar-detected codec
field: whatever the probed codec argument is, a sidecar codec beginning with
"av01" or "vp09" forces conversion; a sidecar codec beginning only with "vp9"
(and not "vp09") does not force conversion on its own. -/
theorem needsVideoConversion_sidecar_override :
    (∀ vcodec codecName : List Char,
        (goStartsWith vcodec (strL "av01") || goStartsWith vcodec (strL "vp09")) = true →
        needsVideoConversion vcodec codecName = true) ∧
    (∀ vcodec codecName : List Char,
        goStartsWith vcodec (strL "av01") = false →
        goStartsWith vcodec (strL "vp09") = false →
        goStartsWith codecName (strL "av01") = false →
        goStartsWith codecName (strL "vp9") = false →
        goStartsWith codecName (strL "vp09") = false →
        needsVideoConversion vcodec codecName = false) := by
  constructor
  · intro vcodec codecName h
    unfold needsVideoConversion
    rcases Bool.or_eq_true_iff.mp h with h1 | h2 <;> split_ifs <;> simp_all
  · intro vcodec codecName h1 h2 h3 h4 h5
    unfold needsVideoConversion
    simp [h1, h2, h3, h4, h5]

/-- Witness for C9: a sidecar tag "vp09" forces conversion even for probed tag
"h264"; a sidecar tag "vp9" alone does not. -/
theorem needsVideoConversion_sidecar_override_witness :
    needsVideoConversion (strL "vp09") (strL "h264") = true ∧
    needsVideoConversion (strL "vp9") (strL "h264") = false :=
  ⟨needsVideoConversion_sidecar_override.1 (strL "vp09") (strL "h264") (by decide),
   needsVideoConversion_sidecar_override.2 (strL "vp9") (strL "h264")
     (by decide) (by decide) (by decide) (by decide) (by decide)⟩

/-- C8: in both pipeline variants the planner's already-compatible flag equals
the conjunction of the negations of the two per-track flags; and the spec's
round-trip scenario (VCodec "vp9", ACodec "aac") yields needs-video true,
needs-audio false, already-compatible false. -/
theorem conversionPlan_alreadyCompatible_invariant :
    (∀ vcodec ov oa : List Char,
        (determineConversionStrategy vcodec ov oa).isAlreadyCompatible =
          (!(determineConversionStrategy vcodec ov oa).needsVideoConversion &&
            !(determineConversionStrategy vcodec ov oa).needsAudioConversion)) ∧
    (∀ (vcodec ov oa : List Char) (size dur : Int),
        (determineConversionStrategyV0 vcodec ov oa size dur).isAlreadyCompatible =
          (!(determineConversionStrategyV0 vcodec ov oa size dur).needsVideoConversion &&
            !(determineConversionStrategyV0 vcodec ov oa size dur).needsAudioConversion)) ∧
    (determineConversionStrategy (strL "vp9") (strL "vp9") (strL "aac")).needsVideoConversion
        = true ∧
    (determineConversionStrategy (strL "vp9") (strL "vp9") (strL "aac")).needsAudioConversion
        = false ∧
    (determineConversionStrategy (strL "vp9") (strL "vp9") (strL "aac")).isAlreadyCompatible
        = false :=
  ⟨fun _ _ _ => rfl, fun _ _ _ _ _ => rfl, by decide, by decide, by decide⟩

/-- Normal form of `calculateTargetBitrate`: the raw size-budget value pushed
through the two sequential clamp branches. -/
theorem calculateTargetBitrate_eq (s d : Int) :
    calculateTargetBitrate s d =
      (let raw := Int.tdiv (Int.tdiv (23 * s) 20 * 8) (if d = 0 then 1 else d) - 128000
       if raw < 200000 then 200000 else if raw > 2000000 then 2000000 else raw) := by
  unfold calculateTargetBitrate
  dsimp only
  split_ifs <;> omega

/-- C3: the computed target bitrate equals the spec's size-budget formula
(1.15× size, minus a 128 kbit/s audio allowance, divided by the duration with
0 treated as 1) clamped into [200000, 2000000]; it always lies in that range,
reaches the 2000000 cap for sufficiently large sizes, and the 200000 floor for
sufficiently small sizes. -/
theorem calculateTargetBitrate_size_budget :
    (∀ size dur : Int, calculateTargetBitrate size dur = specTargetBitrate size dur) ∧
    (∀ size dur : Int,
        200000 ≤ calculateTargetBitrate size dur ∧ calculateTargetBitrate size dur ≤ 2000000) ∧
    (∀ size dur : Int, 0 ≤ dur →
        266000 * (if dur = 0 then 1 else dur) ≤ size →
        calculateTargetBitrate size dur = 2000000) ∧
    (∀ size dur : Int, 0 ≤ dur → 0 ≤ size →
        size ≤ 35000 * (if dur = 0 then 1 else dur) →
        calculateTargetBitrate size dur = 200000) := by
  refine ⟨?_, ?_, ?_, ?_⟩
  · intro s d
    rw [calculateTargetBitrate_eq]
    unfold specTargetBitrate
    dsimp only
    split_ifs <;> omega
  · intro s d
    rw [calculateTargetBitrate_eq]
    dsimp only
    split_ifs <;> omega
  · intro s d hd hsize
    rw [calculateTargetBitrate_eq]
    set d' : Int := if d = 0 then 1 else d with hd'
    have hd'pos : 0 < d' := by rw [hd']; split_ifs with h <;> omega
    have hs : (0 : Int) ≤ s := le_trans (by positivity) hsize
    have h20 : Int.tdiv (23 * s) 20 = (23 * s) / 20 :=
      Int.tdiv_eq_ediv (by omega) (by omega)
    have hq : s ≤ (23 * s) / 20 := by
      rw [Int.le_ediv_iff_mul_le (by omega : (0 : Int) < 20)]
      omega
    have hq0 : 0 ≤ (23 * s) / 20 * 8 := by positivity
    have hdd : Int.tdiv ((23 * s) / 20 * 8) d' = (23 * s) / 20 * 8 / d' :=
      Int.tdiv_eq_ediv hq0 (by omega)
    have hbig : 2128000 ≤ (23 * s) / 20 * 8 / d' := by
      rw [Int.le_ediv_iff_mul_le hd'pos]
      nlinarith
    rw [h20, hdd]
    dsimp only
    split_ifs <;> omega
  · intro s d hd hs hsize
    rw [calculateTargetBitrate_eq]
    set d' : Int := if d = 0 then 1 else d with hd'
    have hd'pos : 0 < d' := by rw [hd']; split_ifs with h <;> omega
    have h20 : Int.tdiv (23 * s) 20 = (23 * s) / 20 :=
      Int.tdiv_eq_ediv (by omega) (by omega)
    have hq' : (23 * s) / 20 * 20 ≤ 23 * s := Int.ediv_mul_le _ (by omega)
    have hqle : (23 * s) / 20 ≤ 40250 * d' := by nlinarith
    have hq1 : (0 : Int) ≤ (23 * s) / 20 := Int.ediv_nonneg (by omega) (by omega)
    have hq0 : 0 ≤ (23 * s) / 20 * 8 := by positivity
    have hdd : Int.tdiv ((23 * s) / 20 * 8) d' = (23 * s) / 20 * 8 / d' :=
      Int.tdiv_eq_ediv hq0 (by omega)
    have hsmall : (23 * s) / 20 * 8 / d' < 328000 := by
      rw [Int.ediv_lt_iff_lt_mul hd'pos]
      nlinarith
    rw [h20, hdd]
    dsimp only
    split_ifs <;> omega

/-- Witness for C3: a 15.96 MB file of 60 s hits the cap, an empty file hits
the floor. -/
theorem calculateTargetBitrate_size_budget_witness :
    calculateTargetBitrate 15960000 60 = 2000000 ∧ calculateTargetBitrate 0 60 = 200000 :=
  ⟨calculateTargetBitrate_size_budget.2.2.1 15960000 60 (by decide) (by decide),
   calculateTargetBitrate_size_budget.2.2.2 0 60 (by decide) (by decide) (by decide)⟩

/-- C6 counterexample: the claim allows only unsigned integer parts, but Go's
`strconv.Atoi` accepts a leading sign, so the duration string "-5" parses
successfully (to -5 seconds) instead of failing. -/
theorem unmarshalDuration_accepts_sign :
    unmarshalDuration (strL "-5") = some (-5) := by decide

/-- C6 (amended): duration parsing splits on ':' and succeeds exactly when the
one, two or three parts each parse under Go's `Atoi` (base-10 integer with an
optional leading sign, within the int64 range), returning seconds,
minutes*60+seconds, or hours*3600+minutes*60+seconds; any other part count or
any unparseable part fails.  "30" parses to 30, "5:30" to 330, "1:30:45" to
5445, and "1:2:3:4" and "abc" fail. -/
theorem unmarshalDuration_colon_shapes :
    (∀ v x : List Char, splitOnColon v = [x] → unmarshalDuration v = goAtoi x) ∧
    (∀ v a b : List Char, splitOnColon v = [a, b] →
        unmarshalDuration v =
          (goAtoi a).bind fun mm => (goAtoi b).bind fun ss => some (mm * 60 + ss)) ∧
    (∀ v a b c : List Char, splitOnColon v = [a, b, c] →
        unmarshalDuration v =
          (goAtoi a).bind fun hh => (goAtoi b).bind fun mm =>
            (goAtoi c).bind fun ss => some (hh * 3600 + mm * 60 + ss)) ∧
    (∀ v : List Char, 4 ≤ (splitOnColon v).length → unmarshalDuration v = none) ∧
    unmarshalDuration (strL "30") = some 30 ∧
    unmarshalDuration (strL "5:30") = some 330 ∧
    unmarshalDuration (strL "1:30:45") = some 5445 ∧
    unmarshalDuration (strL "1:2:3:4") = none ∧
    unmarshalDuration (strL "abc") = none := by
  refine ⟨?_, ?_, ?_, ?_, by decide, by decide, by decide, by decide, by decide⟩
  · intro v x h
    simp [unmarshalDuration, h]
  · intro v a b h
    simp [unmarshalDuration, h]
  · intro v a b c h
    simp [unmarshalDuration, h]
  · intro v h4
    rcases hs : splitOnColon v with _ | ⟨a, _ | ⟨b, _ | ⟨c, _ | ⟨d, t⟩⟩⟩⟩ <;>
      simp [hs] at h4
    simp [unmarshalDuration, hs]

/-- Witness for C6's amended theorem: the one-part shape at "30" and the
too-many-parts failure at "1:2:3:4". -/
theorem unmarshalDuration_colon_shapes_witness :
    unmarshalDuration (strL "30") = goAtoi (strL "30") ∧
    unmarshalDuration (strL "1:2:3:4") = none :=
  ⟨unmarshalDuration_colon_shapes.1 (strL "30") (strL "30") (by decide),
   unmarshalDuration_colon_shapes.2.2.2.1 (strL "1:2:3:4") (by decide)⟩

/-- C4: stream selection returns none exactly when no stream of the kind
exists; the first default-disposition stream wins outright when one exists;
otherwise the left-to-right fold winner is returned, where the pairwise
comparators prefer strictly larger width*height (video) or channel count
(audio), then strictly larger parsed bitrate, and keep the earlier stream on
full ties. -/
theorem selectBestStream_policy :
    (∀ streams : List FFProbeStream,
        selectBestVideoStream streams = none ↔
          streams.filter (fun s => s.codecType == strL "video") = []) ∧
    (∀ (streams : List FFProbeStream) (s : FFProbeStream),
        (streams.filter (fun s => s.codecType == strL "video")).find?
            (fun s => s.dispositionDefault == 1) = some s →
        selectBestVideoStream streams = some s) ∧
    (∀ (streams : List FFProbeStream) (first : FFProbeStream) (rest : List FFProbeStream),
        streams.filter (fun s => s.codecType == strL "video") = first :: rest →
        (first :: rest).find? (fun s => s.dispositionDefault == 1) = none →
        selectBestVideoStream streams =
          some (rest.foldl (fun best s => if isVideoStreamBetter s best then s else best)
            first)) ∧
    (∀ s1 s2 : FFProbeStream,
        isVideoStreamBetter s1 s2 = true ↔
          (s2.width * s2.height < s1.width * s1.height ∨
            (s1.width * s1.height = s2.width * s2.height ∧
              parseBitrate s2.bitRate < parseBitrate s1.bitRate))) ∧
    (∀ streams : List FFProbeStream,
        selectBestAudioStream streams = none ↔
          streams.filter (fun s => s.codecType == strL "audio") = []) ∧
    (∀ (streams : List FFProbeStream) (s : FFProbeStream),
        (streams.filter (fun s => s.codecType == strL "audio")).find?
            (fun s => s.dispositionDefault == 1) = some s →
        selectBestAudioStream streams = some s) ∧
    (∀ (streams : List FFProbeStream) (first : FFProbeStream) (rest : List FFProbeStream),
        streams.filter (fun s => s.codecType == strL "audio") = first :: rest →
        (first :: rest).find? (fun s => s.dispositionDefault == 1) = none →
        selectBestAudioStream streams =
          some (rest.foldl (fun best s => if isAudioStreamBetter s best then s else best)
            first)) ∧
    (∀ s1 s2 : FFProbeStream,
        isAudioStreamBetter s1 s2 = true ↔
          (s2.channels < s1.channels ∨
            (s1.channels = s2.channels ∧
              parseBitrate s2.bitRate < parseBitrate s1.bitRate))) := by
  refine ⟨?_, ?_, ?_, ?_, ?_, ?_, ?_, ?_⟩
  · intro streams
    unfold selectBestVideoStream
    cases h : streams.filter (fun s => s.codecType == strL "video") with
    | nil => simp
    | cons f r =>
      cases hf : (f :: r).find? (fun s => s.dispositionDefault == 1) <;> simp [hf]
  · intro streams s hf
    unfold selectBestVideoStream
    cases h : streams.filter (fun s => s.codecType == strL "video") with
    | nil => rw [h] at hf; simp at hf
    | cons f r =>
      rw [h] at hf
      dsimp only
      rw [hf]
  · intro streams first rest h hf
    unfold selectBestVideoStream
    rw [h]
    dsimp only
    rw [hf]
  · intro s1 s2
    unfold isVideoStreamBetter
    dsimp only
    split_ifs with h <;> simp only [decide_eq_true_eq] <;> omega
  · intro streams
    unfold selectBestAudioStream
    cases h : streams.filter (fun s => s.codecType == strL "audio") with
    | nil => simp
    | cons f r =>
      cases hf : (f :: r).find? (fun s => s.dispositionDefault == 1) <;> simp [hf]
  · intro streams s hf
    unfold selectBestAudioStream
    cases h : streams.filter (fun s => s.codecType == strL "audio") with
    | nil => rw [h] at hf; simp at hf
    | cons f r =>
      rw [h] at hf
      dsimp only
      rw [hf]
  · intro streams first rest h hf
    unfold selectBestAudioStream
    rw [h]
    dsimp only
    rw [hf]
  · intro s1 s2
    unfold isAudioStreamBetter
    split_ifs with h <;> simp only [decide_eq_true_eq] <;> omega

/-- Witness for C4: a default-disposition 720p stream beats a 1080p stream
without the flag, and with no flags a 6-channel audio stream beats a stereo
one. -/
theorem selectBestStream_policy_witness :
    selectBestVideoStream
        [⟨0, strL "video", strL "h264", strL "4000000", 1920, 1080, 0, 0⟩,
         ⟨1, strL "video", strL "h264", strL "2000000", 1280, 720, 0, 1⟩] =
      some ⟨1, strL "video", strL "h264", strL "2000000", 1280, 720, 0, 1⟩ ∧
    selectBestAudioStream
        [⟨0, strL "audio", strL "aac", strL "128000", 0, 0, 2, 0⟩,
         ⟨1, strL "audio", strL "ac3", strL "448000", 0, 0, 6, 0⟩] =
      some ⟨1, strL "audio", strL "ac3", strL "448000", 0, 0, 6, 0⟩ := by
  constructor
  · exact selectBestStream_policy.2.1 _ _ (by decide)
  · exact (selectBestStream_policy.2.2.2.2.2.2.1
        [⟨0, strL "audio", strL "aac", strL "128000", 0, 0, 2, 0⟩,
         ⟨1, strL "audio", strL "ac3", strL "448000", 0, 0, 6, 0⟩]
        ⟨0, strL "audio", strL "aac", strL "128000", 0, 0, 2, 0⟩
        [⟨1, strL "audio", strL "ac3", strL "448000", 0, 0, 6, 0⟩]
        (by decide) (by decide)).trans (by decide)

/-- C5 counterexample: the claim says the returned error carries both
underlying attempt errors, but the code wraps only the second attempt's
error: two runs whose first attempts fail with different errors (1 vs 7)
produce identical results, so the first error is not carried. -/
theorem downloadMediaRetry_drops_first_error :
    downloadMediaRetry (fun b => if b then some 2 else some (1 : Nat)) =
      downloadMediaRetry (fun b => if b then some 2 else some 7) ∧
    downloadMediaRetry (fun b => if b then some 2 else some (1 : Nat)) =
      .failure [false, true] 2 := by
  constructor <;> rfl

/-- C5 (amended): at most two fetch attempts are made — one full, then, only
on failure, exactly one simplified (format-selection and sort arguments
omitted, all other arguments unchanged); success on either attempt stops; if
both fail the returned DownloadFailed error carries the second attempt's
error (the first is only logged). -/
theorem downloadMediaRetry_two_tier :
    (∀ (ε : Type) (run : Bool → Option ε),
        (downloadMediaRetry run).attempts = [false] ∨
          (downloadMediaRetry run).attempts = [false, true]) ∧
    (∀ (ε : Type) (run : Bool → Option ε), run false = none →
        downloadMediaRetry run = .success [false]) ∧
    (∀ (ε : Type) (run : Bool → Option ε) (e1 : ε),
        run false = some e1 → run true = none →
        downloadMediaRetry run = .success [false, true]) ∧
    (∀ (ε : Type) (run : Bool → Option ε) (e1 e2 : ε),
        run false = some e1 → run true = some e2 →
        downloadMediaRetry run = .failure [false, true] e2) ∧
    (∀ m : MediaArgs, ∃ pre post : List (List Char),
        getCommandString m false =
          pre ++ (if ytFormatCond m
                  then [strL "-f", strL "bv[filesize<=1700M]+ba[filesize<=300M]",
                        strL "-S", strL "ext,res:720"]
                  else []) ++ post ∧
        getCommandString m true = pre ++ post) := by
  refine ⟨?_, ?_, ?_, ?_, ?_⟩
  · intro ε run
    unfold downloadMediaRetry
    cases run false <;> [left; skip] <;> [rfl; skip]
    cases run true <;> right <;> rfl
  · intro ε run h
    unfold downloadMediaRetry
    rw [h]
  · intro ε run e1 h1 h2
    unfold downloadMediaRetry
    rw [h1, h2]
  · intro ε run e1 e2 h1 h2
    unfold downloadMediaRetry
    rw [h1, h2]
  · intro m
    refine ⟨[strL "yt-dlp"] ++
        (if m.audioOnly then [strL "-x", strL "--audio-format", strL "mp3"]
         else [strL "--recode-video", strL "mp4"]) ++ [strL "--write-info-json"],
      (if goContains m.host (strL "tiktok.com")
       then [strL "-f", strL "b[url!^=\"https://www.tiktok.com/\"]"] else []) ++
        [strL "-o", m.tmpDir ++ strL "/" ++ m.randomName ++ strL ".%(ext)s", m.url] ++
        (if m.cookiesFile = [] then [] else [strL "--cookies", m.cookiesFile]), ?_, ?_⟩
    · unfold getCommandString ytFormatCond
      dsimp only
      simp [List.append_assoc]
    · unfold getCommandString
      dsimp only
      simp [List.append_assoc]

/-- Witness for C5's amended theorem: a run whose first attempt succeeds, one
whose second attempt succeeds, and one where both fail and the second error
(6) is carried. -/
theorem downloadMediaRetry_two_tier_witness :
    downloadMediaRetry (fun _ => (none : Option Nat)) = .success [false] ∧
    downloadMediaRetry (fun b => if b then none else some (5 : Nat)) = .success [false, true] ∧
    downloadMediaRetry (fun b => if b then some 6 else some (5 : Nat)) =
      .failure [false, true] 6 :=
  ⟨downloadMediaRetry_two_tier.2.1 Nat _ rfl,
   downloadMediaRetry_two_tier.2.2.1 Nat _ 5 rfl rfl,
   downloadMediaRetry_two_tier.2.2.2.1 Nat _ 5 6 rfl rfl⟩

/-- Byte trimming never lengthens a string. -/
theorem trimLeftSet_length_le (cutset s : List Nat) :
    (trimLeftSet cutset s).length ≤ s.length := by
  induction s with
  | nil => simp [trimLeftSet]
  | cons b t ih =>
    unfold trimLeftSet
    split_ifs
    · exact le_trans ih (by simp)
    · simp

/-- Byte trimming never lengthens a string (right side). -/
theorem trimRightSet_length_le (cutset s : List Nat) :
    (trimRightSet cutset s).length ≤ s.length := by
  unfold trimRightSet
  simpa using trimLeftSet_length_le cutset s.reverse

/-- Collapsing double spaces never lengthens a string. -/
theorem collapseSpaces_length_le (s : List Nat) :
    (collapseSpaces s).length ≤ s.length := by
  induction s with
  | nil => simp [collapseSpaces]
  | cons a t ih =>
    cases t with
    | nil => simp [collapseSpaces]
    | cons b t2 =>
      unfold collapseSpaces
      split_ifs
      · exact le_trans ih (by simp)
      · simpa using Nat.succ_le_succ ih

/-- Whitespace trimming never lengthens a string (left, fuelled form). -/
theorem trimLeftSpaceAux_length_le (fuel : Nat) (s : List Nat) :
    (trimLeftSpaceAux fuel s).length ≤ s.length := by
  induction fuel generalizing s with
  | zero => simp [trimLeftSpaceAux]
  | succ n ih =>
    unfold trimLeftSpaceAux
    cases h : spaceHeadLen s with
    | none => simp
    | some k =>
      refine le_trans (ih _) ?_
      simp

/-- Whitespace trimming never lengthens a string (right, fuelled form). -/
theorem trimRightSpaceAux_length_le (fuel : Nat) (s : List Nat) :
    (trimRightSpaceAux fuel s).length ≤ s.length := by
  induction fuel generalizing s with
  | zero => simp [trimRightSpaceAux]
  | succ n ih =>
    unfold trimRightSpaceAux
    cases h : revSpaceHeadLen s with
    | none => simp
    | some k =>
      refine le_trans (ih _) ?_
      simp

/-- Whitespace trimming never lengthens a string. -/
theorem trimLeftSpace_length_le (s : List Nat) :
    (trimLeftSpace s).length ≤ s.length :=
  trimLeftSpaceAux_length_le s.length s

/-- Whitespace trimming never lengthens a string. -/
theorem trimRightSpace_length_le (s : List Nat) :
    (trimRightSpace s).length ≤ s.length := by
  unfold trimRightSpace
  simpa using trimRightSpaceAux_length_le s.reverse.length s.reverse

/-- C10: the sanitized filename is at most 100 bytes long — the truncation
step measures UTF-8 bytes, not characters — and a multi-byte character
spanning the 100-byte boundary is cut mid-sequence when no space occurs at a
byte index above 70: 99 'a's followed by 'é' (UTF-8 C3 A9) truncate to 99
'a's plus the lone lead byte C3 (195). -/
theorem sanitizeFileName_byte_bound :
    (∀ title : List Nat, (sanitizeFileName title).length ≤ 100) ∧
    sanitizeFileName (List.replicate 99 97 ++ [233]) =
      List.replicate 99 97 ++ [195] := by
  constructor
  · intro title
    unfold sanitizeFileName
    split_ifs with ht
    · simp
    · dsimp only
      have hfin : ∀ x : List Nat, (trimRightSpace (trimLeftSpace x)).length ≤ x.length :=
        fun x => le_trans (trimRightSpace_length_le _) (trimLeftSpace_length_le _)
      refine le_trans (hfin _) ?_
      split_ifs with hlen
      · cases hl : lastIdxOf 32
            ((collapseSpaces (trimRightSet [32, 46] (trimLeftSet [32, 46]
              (utf8Encode ((title.map sanitizeRuneStep).flatten))))).take 100) with
        | none => simp
        | some i =>
          dsimp only
          split_ifs with hi
          · simp [List.length_take]
          · simp
      · omega
  · decide

/-- C7 counterexample: the claim truncates only titles over 100 characters,
but the code measures bytes: a title of 51 'é' characters (102 UTF-8 bytes,
well under 100 characters) is truncated to 50 'é' instead of being returned
whole. -/
theorem sanitizeFileName_truncates_under_100_chars :
    sanitizeFileName (List.replicate 51 233) = utf8Encode (List.replicate 50 233) ∧
    utf8Encode (List.replicate 50 233) ≠ utf8Encode (List.replicate 51 233) := by
  constructor <;> decide

/-- C7 (amended): sanitization fails on empty input, drops control
characters, replaces / \ < > : " | with '-', drops '?' and '*', trims
leading/trailing spaces and periods, collapses space runs, truncates results
over 100 UTF-8 bytes (cutting at a space at byte index > 70 when one exists
in the first 100 bytes, else hard-cutting at 100 bytes), re-trims and fails
if empty.  "My Video: Part 1/2" maps to "My Video- Part 1-2", "Ques?tion*"
to "Question", and an empty or all-control-character title fails. -/
theorem sanitizeFileName_policy :
    sanitizeFileName (strCodes "My Video: Part 1/2") = strCodes "My Video- Part 1-2" ∧
    sanitizeFileName (strCodes "Ques?tion*") = strCodes "Question" ∧
    sanitizeFileName [] = [] ∧
    (∀ title : List Nat, (∀ r ∈ title, r < 32) → sanitizeFileName title = []) := by
  refine ⟨by decide, by decide, by decide, ?_⟩
  intro title h
  unfold sanitizeFileName
  split_ifs with ht
  · rfl
  · have hrunes : (title.map sanitizeRuneStep).flatten = [] := by
      rw [List.flatten_eq_nil_iff]
      intro y hy
      rcases List.mem_map.mp hy with ⟨r, hr, rfl⟩
      unfold sanitizeRuneStep
      simp [h r hr]
    dsimp only
    rw [hrunes]
    rfl

/-- Witness for C7's amended theorem: the all-control-character title
[7, 8, 9] sanitizes to the empty (failure) result. -/
theorem sanitizeFileName_policy_witness :
    sanitizeFileName [7, 8, 9] = [] :=
  sanitizeFileName_policy.2.2.2 [7, 8, 9] (by decide)
